import Mathlib

/-!
Agentic RAG front end (`src/Agentic RAG/app.js`).

A shallow embedding of the client-side controller: credential lifecycle
(`loadApiKey`, `saveApiKey`, `clearApiKey`, `toggleApiKeyVisibility`), backend
port resolution (`getBackendPort`), request assembly and response rendering in
`handleGenerate`, the placeholder script of `generateMockScript`, and the text
normalisation of `handleFormat`.

JavaScript strings are sequences of UTF-16 code units; they are modelled as
lists of natural numbers, one per code unit, so that `length`, `substring`,
`trim`, `includes` and `split` count and cut exactly where the source does.
-/

namespace AgenticRAG

/-! ## Strings -/

/-- A JavaScript string: the list of its UTF-16 code units. -/
abbrev JSString := List Nat

/-- UTF-16 encoding of one Unicode scalar value. -/
def utf16 (c : Char) : List Nat :=
  if c.toNat < 0x10000 then [c.toNat]
  else [0xD800 + (c.toNat - 0x10000) / 0x400, 0xDC00 + (c.toNat - 0x10000) % 0x400]

/-- The JavaScript string denoted by a literal. -/
def js (s : String) : JSString := s.toList.flatMap utf16

/-- ECMAScript `LineTerminator`: LF, CR, LS, PS. -/
def isLineTerminator (c : Nat) : Bool :=
  c == 0x000A || c == 0x000D || c == 0x2028 || c == 0x2029

/-- ECMAScript `WhiteSpace` together with `LineTerminator`: the code units that
`String.prototype.trim` strips and that the regular-expression class `\s`
matches. -/
def isWhiteSpace (c : Nat) : Bool :=
  c == 0x0009 || c == 0x000B || c == 0x000C || c == 0x0020 || c == 0x00A0 ||
  c == 0x1680 || (0x2000 ≤ c && c ≤ 0x200A) || c == 0x202F || c == 0x205F ||
  c == 0x3000 || c == 0xFEFF || isLineTerminator c

/-- `String.prototype.trim`: strip white space from both ends. -/
def trim (s : JSString) : JSString :=
  (s.dropWhile isWhiteSpace).rdropWhile isWhiteSpace

/-- `String.prototype.includes(needle)`: the needle occurs at some position. -/
def includes (s needle : JSString) : Bool :=
  s.tails.any (fun t => needle.isPrefixOf t)

/-- `String.prototype.substring(start, end)`: both indices are clamped to
`[0, length]` and swapped when out of order. -/
def substring (s : JSString) (start stop : Int) : JSString :=
  let a := (min (max start 0) s.length).toNat
  let b := (min (max stop 0) s.length).toNat
  (s.drop (min a b)).take (max a b - min a b)

/-- `String.prototype.substring(start)`: the end defaults to the length. -/
def substringFrom (s : JSString) (start : Int) : JSString :=
  substring s start s.length

/-- JavaScript truthiness of a string: every string but the empty one. -/
def truthy (s : JSString) : Bool := !s.isEmpty

/-- JavaScript truthiness of a value that is `null` or a string. -/
def truthyOpt : Option JSString → Bool
  | none => false
  | some s => truthy s

/-! ## Persisted key-value store -/

/-- `localStorage`: a map from keys to string values, `none` for `null`. -/
abbrev Storage := JSString → Option JSString

/-- `localStorage.getItem(key)`. -/
def Storage.getItem (st : Storage) (key : JSString) : Option JSString := st key

/-- `localStorage.setItem(key, value)`. -/
def Storage.setItem (st : Storage) (key value : JSString) : Storage :=
  fun k => if k = key then some value else st k

/-- `localStorage.removeItem(key)`. -/
def Storage.removeItem (st : Storage) (key : JSString) : Storage :=
  fun k => if k = key then none else st k

/-- The empty store. -/
def Storage.empty : Storage := fun _ => none

/-- Key of the persisted credential. -/
def keyApiKey : JSString := js "openai_api_key"

/-- Key of the persisted backend port. -/
def keyBackendPort : JSString := js "backendPort"

/-! ## Credential lifecycle -/

/-- The `type` attribute of the credential input, as far as the code
distinguishes it: `'password'` or anything else (the code writes `'text'`). -/
inductive InputType
  | password
  | text
  deriving DecidableEq, Repr

/-- The `className` values the code gives the status line. -/
inductive StatusClass
  | plain
  | saved
  | warning
  | cleared
  deriving DecidableEq, Repr

/-- The part of the page state the credential functions read and write:
`localStorage`, `config.apiKey`, the credential input (`elements.apiKey`),
the status line (`elements.apiKeyStatus`) and the toggle button caption. The
`setTimeout` callbacks only restyle or hide the status line and are left out. -/
structure State where
  store : Storage
  apiKey : JSString
  fieldValue : JSString
  fieldType : InputType
  statusText : JSString
  statusClass : StatusClass
  toggleText : JSString

/-- The mask separator `'...'`. -/
def maskSeparator : JSString := js "..."

/-- The masked form, as `loadApiKey`, `saveApiKey` and `toggleApiKeyVisibility`
compute it: `k.substring(0, 8) + '...' + k.substring(k.length - 4)`. -/
def maskKey (k : JSString) : JSString :=
  substring k 0 8 ++ maskSeparator ++ substringFrom k ((k.length : Int) - 4)

/-- Function `loadApiKey`. -/
def loadApiKey (s : State) : State :=
  match s.store.getItem keyApiKey with
  | some savedKey =>
    if truthy savedKey then
      { s with
        apiKey := savedKey
        fieldValue := maskKey savedKey
        statusText := js "已保存API Key: " ++ maskKey savedKey
        statusClass := StatusClass.saved }
    else s
  | none => s

/-- Function `saveApiKey`. -/
def saveApiKey (s : State) : State :=
  let apiKey := trim s.fieldValue
  if !truthy apiKey then
    { s with statusText := js "请输入API Key", statusClass := StatusClass.warning }
  else if includes apiKey maskSeparator && decide (apiKey.length < 20) then
    { s with statusText := js "请输入完整的API Key", statusClass := StatusClass.warning }
  else
    { s with
      store := s.store.setItem keyApiKey apiKey
      apiKey := apiKey
      fieldValue := maskKey apiKey
      fieldType := InputType.password
      toggleText := js "👁️ 显示"
      statusText := js "API Key已保存"
      statusClass := StatusClass.saved }

/-- Function `clearApiKey`. -/
def clearApiKey (s : State) : State :=
  { s with
    store := s.store.removeItem keyApiKey
    apiKey := []
    fieldValue := []
    statusText := js "API Key已清除"
    statusClass := StatusClass.cleared }

/-- Function `toggleApiKeyVisibility`. -/
def toggleApiKeyVisibility (s : State) : State :=
  if s.fieldType = InputType.password then
    let shown :=
      if includes s.fieldValue maskSeparator then
        match s.store.getItem keyApiKey with
        | some savedKey => if truthy savedKey then savedKey else s.fieldValue
        | none => s.fieldValue
      else s.fieldValue
    { s with fieldValue := shown, fieldType := InputType.text, toggleText := js "🙈 隐藏" }
  else
    let hidden :=
      match s.store.getItem keyApiKey with
      | some savedKey =>
        if truthy savedKey && decide (s.fieldValue = savedKey) then maskKey savedKey
        else s.fieldValue
      | none => s.fieldValue
    { s with fieldValue := hidden, fieldType := InputType.password, toggleText := js "👁️ 显示" }

/-- The page state right after the script is evaluated, for a given store: the
`config` literal has `apiKey: ''`; the credential input is taken empty and of
type `password` and the status line blank (the page markup is not among the
sources). -/
def State.initial (store : Storage) : State :=
  { store := store, apiKey := [], fieldValue := [], fieldType := InputType.password,
    statusText := [], statusClass := StatusClass.plain, toggleText := [] }

/-- What can happen to the credential controls once `init` has wired them: the
user edits the input, or clicks save (or presses Enter), clear, or the
visibility toggle. -/
inductive Action
  | typeText (v : JSString)
  | save
  | clear
  | toggle

/-- Effect of one user action. -/
def step (s : State) : Action → State
  | Action.typeText v => { s with fieldValue := v }
  | Action.save => saveApiKey s
  | Action.clear => clearApiKey s
  | Action.toggle => toggleApiKeyVisibility s

/-- Effect of a sequence of user actions, first to last. -/
def run (s : State) (acts : List Action) : State := acts.foldl step s

/-- A credential `saveApiKey` stores: non-empty and not rejected as a mask. -/
def Accepted (c : JSString) : Prop :=
  c ≠ [] ∧ ¬ (maskSeparator <:+: c ∧ c.length < 20)

/-- The invariant of the credential controls: `config.apiKey` mirrors the stored
credential, and the stored credential, when there is one, is an accepted one. -/
def Inv (s : State) : Prop :=
  (s.store.getItem keyApiKey = none ∧ s.apiKey = []) ∨
    (∃ c, s.store.getItem keyApiKey = some c ∧ s.apiKey = c ∧ Accepted c)

/-! ## Backend port -/

/-- `URLSearchParams`: the parsed query string, a list of name-value pairs. -/
abbrev URLSearchParams := List (JSString × JSString)

/-- `URLSearchParams.prototype.get(name)`: the first value given for the name,
`null` when there is none. -/
def URLSearchParams.get (params : URLSearchParams) (name : JSString) : Option JSString :=
  (params.find? (fun kv => decide (kv.1 = name))).map (fun kv => kv.2)

/-- The JavaScript expression `a || b` for `a` null or a string and `b` a
string: `a` when it is truthy, else `b`. -/
def orElse (a : Option JSString) (b : JSString) : JSString :=
  match a with
  | some v => if truthy v then v else b
  | none => b

/-- Function `getBackendPort`: the port it returns and the store it leaves. -/
def getBackendPort (params : URLSearchParams) (st : Storage) : JSString × Storage :=
  let portFromUrl := params.get (js "backendPort")
  if truthyOpt portFromUrl then
    (portFromUrl.getD [], st.setItem keyBackendPort (portFromUrl.getD []))
  else
    (orElse (st.getItem keyBackendPort) (js "5000"), st)

/-- The `DOMContentLoaded` handler, up to its call of `init`: it stores a truthy
`backendPort` query parameter. -/
def onDOMContentLoaded (params : URLSearchParams) (st : Storage) : Storage :=
  let backendPort := params.get (js "backendPort")
  if truthyOpt backendPort then st.setItem keyBackendPort (backendPort.getD []) else st

/-- An ASCII decimal digit, `0` to `9`. -/
def isDigit (c : Nat) : Bool := decide (48 ≤ c) && decide (c ≤ 57)

/-- A string-encoded integer, as a port is written: one or more decimal
digits. -/
def isIntegerString (s : JSString) : Bool := !s.isEmpty && s.all isDigit

/-! ## Generation request and response -/

/-- `String.prototype.split(sep)` for a separator of one code unit. -/
def split (sep : Nat) : JSString → List JSString
  | [] => [[]]
  | c :: rest =>
    if c = sep then [] :: split sep rest
    else
      match split sep rest with
      | [] => [[c]]
      | piece :: pieces => (c :: piece) :: pieces

/-- The `npcTags` value `handleGenerate` computes from the mode selector value
and the auxiliary-tag field; `none` is `null`. The mode is
`elements.generationMode.value || 'map'`. -/
def npcTags (modeValue tagField : JSString) : Option (List JSString) :=
  let generationMode := orElse (some modeValue) (js "map")
  if generationMode = js "encounter" then
    let npcTagsInput := trim tagField
    if truthy npcTagsInput then
      some (((split 44 npcTagsInput).map trim).filter truthy)
    else none
  else none

/-- The request `handleGenerate` sends, without the numeric and selector fields
of `config`, which are copied through unchanged. -/
structure RequestData where
  url : JSString
  input : JSString
  mode : JSString
  npcTags : Option (List JSString)
  apiKey : Option JSString

/-- The request part of `handleGenerate`: `none` when the trimmed description is
empty (the function alerts and returns), otherwise the request it posts and the
store `getBackendPort` leaves behind. -/
def handleGenerateRequest (params : URLSearchParams) (st : Storage)
    (userInputField modeValue tagField : JSString) : Option (RequestData × Storage) :=
  let userInput := trim userInputField
  let generationMode := orElse (some modeValue) (js "map")
  if !truthy userInput then none
  else
    let port := getBackendPort params st
    let savedApiKey := orElse (port.2.getItem keyApiKey) []
    some
      ({ url := js "http://localhost:" ++ port.1 ++ js "/api/generate"
         input := userInput
         mode := generationMode
         npcTags := npcTags modeValue tagField
         apiKey := if truthy savedApiKey then some savedApiKey else none },
        port.2)

/-- A JSON number after parsing, a double. The code only tests it for
truthiness (`0` and `-0` are falsy), so it is kept as a sign and a magnitude,
which is infinite (`1e999` parses to `Infinity`) or `mantissa * 2 ^ exponent`. -/
inductive JSNumber
  | finite (negative : Bool) (mantissa : Nat) (exponent : Int)
  | infinite (negative : Bool)
  deriving DecidableEq

/-- The number is `0` or `-0`. -/
def JSNumber.isZero : JSNumber → Bool
  | JSNumber.finite _ mantissa _ => mantissa == 0
  | JSNumber.infinite _ => false

/-- What `response.json()` resolves to: any JSON value. An object is given by
its members in the order of the text. -/
inductive JsonValue
  | null
  | bool (b : Bool)
  | number (x : JSNumber)
  | string (s : JSString)
  | array (items : List JsonValue)
  | object (members : List (JSString × JsonValue))

/-- ECMAScript `ToBoolean` on a JSON value: `null`, `false`, zero and the empty
string are falsy, everything else, arrays and objects included, is truthy. -/
def JsonValue.truthy : JsonValue → Bool
  | JsonValue.null => false
  | JsonValue.bool b => b
  | JsonValue.number x => !x.isZero
  | JsonValue.string s => !s.isEmpty
  | JsonValue.array _ => true
  | JsonValue.object _ => true

/-- Truthiness of the result of a property read, `none` being `undefined`. -/
def truthyValue : Option JsonValue → Bool
  | none => false
  | some v => v.truthy

/-- The value of the member named `key` of a parsed object: with duplicate
names in the text the last member wins; `none` is `undefined`. -/
def lastMember (members : List (JSString × JsonValue)) (key : JSString) : Option JsonValue :=
  members.foldl (fun found kv => if kv.1 = key then some kv.2 else found) none

/-- An exception thrown while the code runs. -/
inductive JSError
  | typeError
  deriving DecidableEq

/-- The property read `data.luaScript` or `data.error` on a parsed body: a
`TypeError` when the body is `null`, the member for an object, and `undefined`
for a boolean, a number, a string or an array (which have no property of either
name). -/
def getProperty (data : JsonValue) (key : JSString) : Except JSError (Option JsonValue) :=
  match data with
  | JsonValue.null => Except.error JSError.typeError
  | JsonValue.object members => Except.ok (lastMember members key)
  | _ => Except.ok none

/-- The fixed message shown when the response carries nothing to show. -/
def genericFailure : JSString := js "生成失败，请重试"

/-- The expression `data.error || '生成失败，请重试'`. -/
def errorOrGeneric (data : JsonValue) : Except JSError JsonValue :=
  match getProperty data (js "error") with
  | Except.error e => Except.error e
  | Except.ok (some v) => if v.truthy then Except.ok v else Except.ok (JsonValue.string genericFailure)
  | Except.ok none => Except.ok (JsonValue.string genericFailure)

/-- The argument `handleGenerate` computes for `displayResult` in the timer
callback of an HTTP-success response with parsed body `data`:
`data.luaScript || data.error || '生成失败，请重试'`. An error is the exception
the callback throws instead, in which case `displayResult` is not called. -/
def handleGenerateSuccess (data : JsonValue) : Except JSError JsonValue :=
  match getProperty data (js "luaScript") with
  | Except.error e => Except.error e
  | Except.ok (some v) => if v.truthy then Except.ok v else errorOrGeneric data
  | Except.ok none => errorOrGeneric data

/-! ## Placeholder script -/

/-- The template of `generateMockScript` up to the interpolated input, line by line. -/
def mockScriptHead : List String :=
  ["function CreateStarterZone()",
   "    local map = Env.CreateMap(100, 100, 100)",
   "    Env.SetMapName(map, \"新手平原\")",
   "    Env.SetMapTheme(map, \"Medieval\")",
   "",
   "    -- 根据用户输入生成的地图",
   "    -- 输入: "]

/-- The template of `generateMockScript` after the interpolated input, line by line. -/
def mockScriptTail : List String :=
  ["...",
   "",
   "    Env.RaiseTerrain(map, \x7bX=50, Y=50\x7d, 30, 200, 0.8)",
   "    Env.SmoothTerrain(map, 3)",
   "",
   "    local villageBlock = Env.AddBlock(map, \"新手村\", \x7bX=35, Y=30\x7d, \x7bX=30, Y=25\x7d)",
   "    Env.SetBlockType(villageBlock, \"Village\")",
   "    Env.SetBlockProperty(villageBlock, \"SafeZone\", \"true\")",
   "",
   "    Env.FlattenTerrain(map, \x7bX=50, Y=42\x7d, 12, 50)",
   "",
   "    local inn = Env.AddBuilding(villageBlock, \x7bX=5, Y=5\x7d, \x7bX=5, Y=4\x7d, \"Medieval\", \x7bPitch=0, Yaw=0, Roll=0\x7d)",
   "    Env.SetBuildingType(inn, \"Tavern\")",
   "    Env.AddBuildingFloor(inn, 300)",
   "    Env.AddBuildingFloor(inn, 300)",
   "    Env.SetBuildingRoof(inn, \"Pitched\")",
   "    Env.AutoFurnishBuilding(inn, \"Tavern\")",
   "",
   "    Env.AddNPCSpawn(villageBlock, \"NPC_QuestGiver\", \x7bX=1200, Y=400, Z=0\x7d, \x7bPitch=0, Yaw=0, Roll=0\x7d)",
   "    Env.AddSpawnPoint(villageBlock, \"PlayerStart\", \x7bX=1000, Y=200, Z=0\x7d, \x7bPitch=0, Yaw=0, Roll=0\x7d)",
   "",
   "    local errors = Env.ValidateMap(map)",
   "    if #errors > 0 then",
   "        for _, err in ipairs(errors) do",
   "            Log(\"[错误] \" .. err)",
   "        end",
   "        return nil",
   "    end",
   "",
   "    Env.SaveMap(map, \"StarterZone_v1\")",
   "",
   "    Env.BuildAsync(map, function(levelRoot)",
   "        Log(\"关卡构建完成！\")",
   "        OnLevelReady(levelRoot)",
   "    end)",
   "",
   "    return map",
   "end",
   "",
   "function OnLevelReady(levelRoot)",
   "    local spawnPos = World.GetSpawnPoint(\"PlayerStart\")",
   "    local player = World.SpawnPlayer(spawnPos)",
   "end"]

/-- The JavaScript string made of the given lines, joined by line feeds. -/
def jsLines (ls : List String) : JSString := List.intercalate [10] (ls.map js)

/-- Function `generateMockScript`: the template literal with
`userInput.substring(0, 100)` interpolated. -/
def generateMockScript (userInput : JSString) : JSString :=
  jsLines mockScriptHead ++ substring userInput 0 100 ++ jsLines mockScriptTail

/-! ## Text normalisation of `handleFormat` -/

/-- `String.prototype.replace(re, replacement)` for a global regular expression
whose match at a position depends only on the text from that position on:
`matchAt rest` is the length of the match starting where `rest` starts, if any.
The scan goes left to right; a match is replaced and the scan resumes right
after it (one code unit further when the match was empty). The first argument
counts the code units of the current match still to be skipped. -/
def replaceAll (matchAt : JSString → Option Nat) (replacement : JSString) :
    Nat → JSString → JSString
  | 0, [] =>
    match matchAt [] with
    | some _ => replacement
    | none => []
  | _ + 1, [] => []
  | k + 1, _ :: rest => replaceAll matchAt replacement k rest
  | 0, c :: rest =>
    match matchAt (c :: rest) with
    | some (n + 1) => replacement ++ replaceAll matchAt replacement n rest
    | some 0 => replacement ++ c :: replaceAll matchAt replacement 0 rest
    | none => c :: replaceAll matchAt replacement 0 rest

/-- The match of `/\n{3,}/` at the start of the text: the whole run of line
feeds there (the quantifier is greedy), when it has at least three. -/
def matchNewlines (s : JSString) : Option Nat :=
  let n := (s.takeWhile (fun c => c == 10)).length
  if 3 ≤ n then some n else none

/-- The assertion `$` under the `m` flag: at the end of the text or right before
a line terminator. -/
def atLineEnd : JSString → Bool
  | [] => true
  | c :: _ => isLineTerminator c

/-- The match of `/\s+$/m` at the start of the text: the longest non-empty run
of white space there that ends where `$` holds (greedy, giving back one code
unit at a time). -/
def matchTrailingSpace : JSString → Option Nat
  | [] => none
  | c :: rest =>
    if isWhiteSpace c then
      match matchTrailingSpace rest with
      | some n => some (n + 1)
      | none => if atLineEnd rest then some 1 else none
    else none

/-- The normalisation of `handleFormat`:
`text.replace(/\n{3,}/g, '\n\n').replace(/\s+$/gm, '').trim()`. -/
def formatText (text : JSString) : JSString :=
  trim (replaceAll matchTrailingSpace [] 0 (replaceAll matchNewlines [10, 10] 0 text))

/-- Function `handleFormat` on the displayed text, `none` when the output area
holds no code block: the text it re-renders, if any. -/
def handleFormat (displayed : Option JSString) : Option JSString :=
  displayed.map formatText

/-- No suffix of the text is matched by `/\s+$/m` at its start: the text has no
match of that expression anywhere. -/
def NoTrailingSpace (l : JSString) : Prop :=
  ∀ t, t <:+ l → matchTrailingSpace t = none

/-! ## Lemmas on strings -/

theorem substring_zero (s : JSString) (n : Nat) : substring s 0 n = s.take n := by
  simp only [substring]
  have h1 : (min (max (0 : Int) 0) (s.length : Int)).toNat = 0 := by simp
  have h2 : (min (max (n : Int) 0) (s.length : Int)).toNat = min n s.length := by
    rw [max_eq_left (by omega : (0 : Int) ≤ n)]
    omega
  rw [h1, h2]
  simp only [Nat.zero_min, List.drop_zero, Nat.zero_max, Nat.sub_zero]
  rw [List.take_eq_take]
  omega

theorem substringFrom_sub (s : JSString) (n : Nat) :
    substringFrom s ((s.length : Int) - n) = s.drop (s.length - n) := by
  simp only [substringFrom, substring]
  have h1 : (min (max ((s.length : Int) - n) 0) (s.length : Int)).toNat = s.length - n := by
    omega
  have h2 : (min (max (s.length : Int) 0) (s.length : Int)).toNat = s.length := by
    omega
  rw [h1, h2]
  have h3 : min (s.length - n) s.length = s.length - n := by omega
  have h4 : max (s.length - n) s.length = s.length := by omega
  rw [h3, h4]
  apply List.take_of_length_le
  simp only [List.length_drop]
  omega

theorem maskKey_eq (k : JSString) :
    maskKey k = k.take 8 ++ [46, 46, 46] ++ k.drop (k.length - 4) := by
  have h := substringFrom_sub k 4
  simp only [Nat.cast_ofNat] at h
  have h8 := substring_zero k 8
  simp only [Nat.cast_ofNat] at h8
  simp only [maskKey, h, h8]
  rfl

theorem includes_iff (s needle : JSString) : includes s needle = true ↔ needle <:+: s := by
  simp only [includes, List.any_eq_true, List.mem_tails, List.isPrefixOf_iff_prefix]
  rw [List.infix_iff_prefix_suffix]
  constructor
  · rintro ⟨t, h1, h2⟩
    exact ⟨t, h2, h1⟩
  · rintro ⟨t, h1, h2⟩
    exact ⟨t, h2, h1⟩

theorem truthy_iff (s : JSString) : truthy s = true ↔ s ≠ [] := by
  cases s <;> simp [truthy]

theorem dropWhile_append_cons_neg (p : Nat → Bool) (a b : List Nat) (x : Nat)
    (hx : p x = false) : (a ++ x :: b).dropWhile p = a.dropWhile p ++ x :: b := by
  induction a with
  | nil => simp [List.dropWhile, hx]
  | cons y a ih =>
    by_cases hy : p y = true
    · simp [List.dropWhile, hy, ih]
    · simp [List.dropWhile, hy]

theorem rdropWhile_append_cons_neg (p : Nat → Bool) (a b : List Nat) (x : Nat)
    (hx : p x = false) : (a ++ x :: b).rdropWhile p = a ++ x :: b.rdropWhile p := by
  simp only [List.rdropWhile, List.reverse_append, List.reverse_cons, List.append_assoc,
    List.singleton_append]
  rw [dropWhile_append_cons_neg p _ _ x hx]
  simp

/-- Trimming a string with a dot-delimited middle part only touches the two
outer parts. -/
theorem trim_around_separator (a b : List Nat) :
    trim (a ++ [46, 46, 46] ++ b)
      = a.dropWhile isWhiteSpace ++ [46, 46, 46] ++ b.rdropWhile isWhiteSpace := by
  have h46 : isWhiteSpace 46 = false := by decide
  have e1 : a ++ [46, 46, 46] ++ b = a ++ 46 :: (46 :: 46 :: b) := by simp
  rw [trim, e1, dropWhile_append_cons_neg _ _ _ _ h46]
  have e2 : List.dropWhile isWhiteSpace a ++ 46 :: 46 :: 46 :: b
      = (List.dropWhile isWhiteSpace a ++ [46, 46]) ++ 46 :: b := by simp
  rw [e2, rdropWhile_append_cons_neg _ _ _ _ h46]
  simp

theorem maskSeparator_eq : maskSeparator = [46, 46, 46] := by decide

theorem trim_maskKey_has_separator (k : JSString) : maskSeparator <:+: trim (maskKey k) := by
  rw [maskKey_eq, trim_around_separator, maskSeparator_eq]
  exact ⟨_, _, rfl⟩

theorem trim_maskKey_length (k : JSString) : (trim (maskKey k)).length ≤ 15 := by
  rw [maskKey_eq, trim_around_separator]
  have h1 : (List.dropWhile isWhiteSpace (List.take 8 k)).length ≤ 8 :=
    le_trans (List.dropWhile_suffix _).length_le (by simp)
  have h2 : (List.rdropWhile isWhiteSpace (List.drop (k.length - 4) k)).length ≤ 4 :=
    le_trans (List.rdropWhile_prefix isWhiteSpace _).length_le (by simp; omega)
  simp only [List.length_append, List.length_cons, List.length_nil]
  omega

theorem maskKey_has_separator (k : JSString) : maskSeparator <:+: maskKey k := by
  rw [maskKey_eq, maskSeparator_eq]
  exact ⟨_, _, rfl⟩

theorem maskKey_length (k : JSString) : (maskKey k).length ≤ 15 := by
  rw [maskKey_eq]
  simp only [List.length_append, List.length_take, List.length_cons, List.length_nil,
    List.length_drop]
  omega

/-- The rejection test of `saveApiKey`, on the trimmed input. -/
theorem saveApiKey_rejected (s : State)
    (h : trim s.fieldValue = [] ∨
      (maskSeparator <:+: trim s.fieldValue ∧ (trim s.fieldValue).length < 20)) :
    (saveApiKey s).store = s.store ∧ (saveApiKey s).apiKey = s.apiKey ∧
      (saveApiKey s).fieldValue = s.fieldValue ∧
      (saveApiKey s).statusClass = StatusClass.warning := by
  unfold saveApiKey
  by_cases he : trim s.fieldValue = []
  · simp [he, truthy]
  · have ht : truthy (trim s.fieldValue) = true := (truthy_iff _).2 he
    rcases h with h | ⟨h1, h2⟩
    · exact absurd h he
    · have hi : includes (trim s.fieldValue) maskSeparator = true := (includes_iff _ _).2 h1
      simp [ht, hi, h2]

theorem saveApiKey_accepted (s : State)
    (h : ¬ (trim s.fieldValue = [] ∨
      (maskSeparator <:+: trim s.fieldValue ∧ (trim s.fieldValue).length < 20))) :
    saveApiKey s =
      { s with
        store := s.store.setItem keyApiKey (trim s.fieldValue)
        apiKey := trim s.fieldValue
        fieldValue := maskKey (trim s.fieldValue)
        fieldType := InputType.password
        toggleText := js "👁️ 显示"
        statusText := js "API Key已保存"
        statusClass := StatusClass.saved } := by
  unfold saveApiKey
  push_neg at h
  obtain ⟨he, hm⟩ := h
  have ht : truthy (trim s.fieldValue) = true := (truthy_iff _).2 he
  by_cases hi : includes (trim s.fieldValue) maskSeparator = true
  · have h2 := hm ((includes_iff _ _).1 hi)
    simp [ht, hi, h2]
  · simp [ht, hi]

theorem getItem_setItem (st : Storage) (key value : JSString) :
    (st.setItem key value).getItem key = some value := by
  simp [Storage.getItem, Storage.setItem]

theorem getItem_removeItem (st : Storage) (key : JSString) :
    (st.removeItem key).getItem key = none := by
  simp [Storage.getItem, Storage.removeItem]

theorem accepted_of_saved (p : State) (h : (saveApiKey p).statusClass = StatusClass.saved) :
    (saveApiKey p).store.getItem keyApiKey = some (trim p.fieldValue) ∧
      Accepted (trim p.fieldValue) := by
  have hnot : ¬ (trim p.fieldValue = [] ∨
      (maskSeparator <:+: trim p.fieldValue ∧ (trim p.fieldValue).length < 20)) := by
    intro hr
    have hw := (saveApiKey_rejected p hr).2.2.2
    rw [h] at hw
    cases hw
  refine ⟨?_, ?_⟩
  · rw [saveApiKey_accepted p hnot]
    exact getItem_setItem _ _ _
  · simp only [not_or] at hnot
    exact hnot

theorem inv_saveApiKey (s : State) (h : Inv s) : Inv (saveApiKey s) := by
  by_cases hr : trim s.fieldValue = [] ∨
      (maskSeparator <:+: trim s.fieldValue ∧ (trim s.fieldValue).length < 20)
  · obtain ⟨h1, h2, -, -⟩ := saveApiKey_rejected s hr
    unfold Inv
    rw [h1, h2]
    exact h
  · right
    refine ⟨trim s.fieldValue, ?_, ?_, ?_⟩
    · rw [saveApiKey_accepted s hr]
      exact getItem_setItem _ _ _
    · rw [saveApiKey_accepted s hr]
    · simp only [not_or] at hr
      exact hr

theorem inv_clearApiKey (s : State) : Inv (clearApiKey s) :=
  Or.inl ⟨getItem_removeItem _ _, rfl⟩

theorem toggle_store (s : State) : (toggleApiKeyVisibility s).store = s.store := by
  unfold toggleApiKeyVisibility
  split <;> rfl

theorem toggle_apiKey (s : State) : (toggleApiKeyVisibility s).apiKey = s.apiKey := by
  unfold toggleApiKeyVisibility
  split <;> rfl

theorem inv_toggle (s : State) (h : Inv s) : Inv (toggleApiKeyVisibility s) := by
  unfold Inv
  rw [toggle_store, toggle_apiKey]
  exact h

theorem inv_step (s : State) (a : Action) (h : Inv s) : Inv (step s a) := by
  cases a with
  | typeText v => exact h
  | save => exact inv_saveApiKey s h
  | clear => exact inv_clearApiKey s
  | toggle => exact inv_toggle s h

theorem inv_run (acts : List Action) (s : State) (h : Inv s) : Inv (run s acts) := by
  induction acts generalizing s with
  | nil => exact h
  | cons a acts ih => exact ih (step s a) (inv_step s a h)

theorem inv_loadApiKey (s : State) (h0 : s.apiKey = [])
    (hs : s.store.getItem keyApiKey = none ∨
      ∃ c, s.store.getItem keyApiKey = some c ∧ Accepted c) : Inv (loadApiKey s) := by
  rcases hs with hn | ⟨c, hc, hacc⟩
  · have hl : loadApiKey s = s := by simp only [loadApiKey, hn]
    rw [hl]
    exact Or.inl ⟨hn, h0⟩
  · have hl : loadApiKey s =
        { s with
          apiKey := c
          fieldValue := maskKey c
          statusText := js "已保存API Key: " ++ maskKey c
          statusClass := StatusClass.saved } := by
      simp only [loadApiKey, hc, (truthy_iff _).2 hacc.1, if_true]
    rw [hl]
    exact Or.inr ⟨c, hc, rfl, hacc⟩

theorem inv_not_mask (s : State) (h : Inv s) (k : JSString) : s.apiKey ≠ maskKey k := by
  intro he
  have hlen := maskKey_length k
  have hinf := maskKey_has_separator k
  rcases h with ⟨-, h2⟩ | ⟨c, -, h2, hacc⟩
  · rw [h2, maskKey_eq] at he
    simp at he
  · apply hacc.2
    rw [← h2, he]
    exact ⟨hinf, by omega⟩

/-! ## Lemmas on `trim` and `split` -/

theorem dropWhile_head_neg (p : Nat → Bool) (l : List Nat) (c : Nat)
    (h : (l.dropWhile p).head? = some c) : p c = false := by
  induction l with
  | nil => simp at h
  | cons x l ih =>
    by_cases hx : p x = true
    · rw [List.dropWhile_cons_of_pos hx] at h
      exact ih h
    · rw [List.dropWhile_cons_of_neg hx] at h
      simp only [List.head?_cons, Option.some.injEq] at h
      rw [← h]
      simpa using hx

theorem dropWhile_eq_self_of_head (p : Nat → Bool) (l : List Nat)
    (h : ∀ c, l.head? = some c → p c = false) : l.dropWhile p = l := by
  cases l with
  | nil => rfl
  | cons x l =>
    have hx : p x = false := h x rfl
    simp [List.dropWhile, hx]

theorem rdropWhile_last_neg (p : Nat → Bool) (l : List Nat) (c : Nat)
    (h : (l.rdropWhile p).getLast? = some c) : p c = false := by
  rw [List.rdropWhile, List.getLast?_reverse] at h
  exact dropWhile_head_neg p _ c h

theorem rdropWhile_eq_self_of_last (p : Nat → Bool) (l : List Nat)
    (h : ∀ c, l.getLast? = some c → p c = false) : l.rdropWhile p = l := by
  rw [List.rdropWhile, dropWhile_eq_self_of_head, List.reverse_reverse]
  intro c hc
  rw [List.head?_reverse] at hc
  exact h c hc

theorem head_of_rdropWhile (p : Nat → Bool) (l : List Nat) (c : Nat)
    (h : (l.rdropWhile p).head? = some c) : l.head? = some c := by
  obtain ⟨t, ht⟩ := List.rdropWhile_prefix p l
  cases hr : l.rdropWhile p with
  | nil => rw [hr] at h; simp at h
  | cons x r =>
    rw [hr] at h ht
    rw [← ht]
    simpa using h

theorem trim_head (s : JSString) (c : Nat) (h : (trim s).head? = some c) :
    isWhiteSpace c = false :=
  dropWhile_head_neg _ s c (head_of_rdropWhile _ _ c h)

theorem trim_last (s : JSString) (c : Nat) (h : (trim s).getLast? = some c) :
    isWhiteSpace c = false :=
  rdropWhile_last_neg _ _ c h

theorem trim_eq_self (t : JSString)
    (hh : ∀ c, t.head? = some c → isWhiteSpace c = false)
    (hl : ∀ c, t.getLast? = some c → isWhiteSpace c = false) : trim t = t := by
  rw [trim, dropWhile_eq_self_of_head _ _ hh, rdropWhile_eq_self_of_last _ _ hl]

theorem trim_trim (s : JSString) : trim (trim s) = trim s :=
  trim_eq_self _ (trim_head s) (trim_last s)

theorem mem_of_mem_trim (s : JSString) (c : Nat) (h : c ∈ trim s) : c ∈ s :=
  (List.dropWhile_suffix _).subset ((List.rdropWhile_prefix isWhiteSpace _).subset h)

theorem split_ne_nil (sep : Nat) (s : JSString) : split sep s ≠ [] := by
  cases s with
  | nil => simp [split]
  | cons c rest =>
    simp only [split]
    split
    · simp
    · split <;> simp

theorem split_eq_splitOn (sep : Nat) (s : JSString) : split sep s = s.splitOn sep := by
  induction s with
  | nil => simp [split]
  | cons c rest ih =>
    rw [List.splitOn, List.splitOnP_cons, ← List.splitOn, ← ih]
    by_cases hc : c = sep
    · simp [split, hc]
    · have hne := split_ne_nil sep rest
      cases hs : split sep rest with
      | nil => exact absurd hs hne
      | cons piece pieces => simp [split, hc, hs]

theorem sep_not_mem_split (sep : Nat) (s piece : JSString) (h : piece ∈ split sep s) :
    sep ∉ piece := by
  induction s generalizing piece with
  | nil =>
    simp only [split, List.mem_singleton] at h
    simp [h]
  | cons c rest ih =>
    by_cases hc : c = sep
    · simp only [split, hc, if_true, List.mem_cons] at h
      rcases h with h | h
      · simp [h]
      · exact ih piece h
    · cases hs : split sep rest with
      | nil => exact absurd hs (split_ne_nil sep rest)
      | cons q qs =>
        simp only [split, hc, if_false, hs, List.mem_cons] at h
        rcases h with h | h
        · rw [h]
          simp only [List.mem_cons, not_or]
          exact ⟨fun e => hc e.symm, ih q (by rw [hs]; simp)⟩
        · exact ih piece (by rw [hs]; simp [h])

theorem npcTags_other_mode (modeValue tagField : JSString)
    (h : modeValue ≠ js "encounter") : npcTags modeValue tagField = none := by
  unfold npcTags orElse
  by_cases hm : truthy modeValue = true
  · simp [hm, h]
  · have : js "map" ≠ js "encounter" := by decide
    simp [hm, this]

theorem npcTags_encounter (tagField : JSString) (h : trim tagField ≠ []) :
    npcTags (js "encounter") tagField
      = some (((split 44 (trim tagField)).map trim).filter truthy) := by
  have h1 : orElse (some (js "encounter")) (js "map") = js "encounter" := by decide
  simp only [npcTags, h1, if_true, (truthy_iff _).2 h]

theorem handleGenerateRequest_npcTags (params : URLSearchParams) (st : Storage)
    (userInputField modeValue tagField : JSString) (h : trim userInputField ≠ []) :
    ∃ req st', handleGenerateRequest params st userInputField modeValue tagField
        = some (req, st') ∧ req.npcTags = npcTags modeValue tagField := by
  simp only [handleGenerateRequest, (truthy_iff _).2 h, Bool.not_true, Bool.false_eq_true,
    if_false]
  exact ⟨_, _, rfl, rfl⟩

theorem orElse_some (v b : JSString) (h : v ≠ []) : orElse (some v) b = v := by
  simp [orElse, (truthy_iff v).2 h]

theorem orElse_falsy (a : Option JSString) (b : JSString) (h : a = none ∨ a = some []) :
    orElse a b = b := by
  rcases h with h | h <;> simp [h, orElse, truthy]

theorem getBackendPort_of_param (params : URLSearchParams) (st : Storage) (v : JSString)
    (hv : params.get (js "backendPort") = some v) (hne : v ≠ []) :
    getBackendPort params st = (v, st.setItem keyBackendPort v) := by
  simp [getBackendPort, hv, truthyOpt, (truthy_iff v).2 hne]

theorem getBackendPort_no_param (params : URLSearchParams) (st : Storage)
    (hv : params.get (js "backendPort") = none ∨ params.get (js "backendPort") = some []) :
    getBackendPort params st = (orElse (st.getItem keyBackendPort) (js "5000"), st) := by
  rcases hv with hv | hv <;> simp [getBackendPort, hv, truthyOpt, truthy]

/-! ## Lemmas on the text normalisation -/

theorem replaceAll_of_no_match (m : JSString → Option Nat) (r l : JSString)
    (h : ∀ t, t <:+ l → m t = none) : replaceAll m r 0 l = l := by
  induction l with
  | nil =>
    have h0 := h [] (List.suffix_refl _)
    simp [replaceAll, h0]
  | cons c rest ih =>
    have h0 := h (c :: rest) (List.suffix_refl _)
    have hrest : ∀ t, t <:+ rest → m t = none :=
      fun t ht => h t (ht.trans (List.suffix_cons c rest))
    simp [replaceAll, h0, ih hrest]

theorem matchTrailingSpace_ne_zero (s : JSString) : matchTrailingSpace s ≠ some 0 := by
  cases s with
  | nil => simp [matchTrailingSpace]
  | cons c rest =>
    unfold matchTrailingSpace
    split
    · split
      · simp
      · split <;> simp
    · simp

theorem matchTrailingSpace_cons_none (c : Nat) (rest : JSString)
    (h : matchTrailingSpace rest = none) (hl : atLineEnd rest = false) :
    matchTrailingSpace (c :: rest) = none := by
  unfold matchTrailingSpace
  simp [h, hl]

theorem matchTrailingSpace_cons_inv (c : Nat) (rest : JSString)
    (h : matchTrailingSpace (c :: rest) = none) (hc : isWhiteSpace c = true) :
    matchTrailingSpace rest = none ∧ atLineEnd rest = false := by
  unfold matchTrailingSpace at h
  simp only [hc, if_true] at h
  cases hm : matchTrailingSpace rest with
  | some n => rw [hm] at h; simp at h
  | none =>
    rw [hm] at h
    refine ⟨rfl, ?_⟩
    by_contra hl
    simp only [Bool.not_eq_false] at hl
    simp [hl] at h

theorem matchTrailingSpace_of_not_space (c : Nat) (rest : JSString)
    (hc : isWhiteSpace c = false) : matchTrailingSpace (c :: rest) = none := by
  unfold matchTrailingSpace
  simp [hc]

/-- Deleting every match of `/\s+$/m` leaves a text without any match. -/
theorem noTrailingSpace_replaceAll (l : JSString) (k : Nat) :
    NoTrailingSpace (replaceAll matchTrailingSpace [] k l) := by
  induction l generalizing k with
  | nil =>
    intro t ht
    cases k with
    | zero =>
      simp only [replaceAll, matchTrailingSpace] at ht
      rw [List.suffix_nil.1 ht]
      rfl
    | succ k =>
      simp only [replaceAll] at ht
      rw [List.suffix_nil.1 ht]
      rfl
  | cons c rest ih =>
    cases k with
    | succ k =>
      simp only [replaceAll]
      exact ih k
    | zero =>
      cases hm : matchTrailingSpace (c :: rest) with
      | some n =>
        cases n with
        | zero => exact absurd hm (matchTrailingSpace_ne_zero _)
        | succ n =>
          simp only [replaceAll, hm, List.nil_append]
          exact ih n
      | none =>
        simp only [replaceAll, hm]
        intro t ht
        rcases List.suffix_cons_iff.1 ht with rfl | ht
        · by_cases hc : isWhiteSpace c = true
          · obtain ⟨h1, h2⟩ := matchTrailingSpace_cons_inv c rest hm hc
            apply matchTrailingSpace_cons_none
            · exact ih 0 _ (List.suffix_refl _)
            · cases rest with
              | nil => simp [atLineEnd] at h2
              | cons d rest' =>
                simp only [replaceAll, h1]
                exact h2
          · exact matchTrailingSpace_of_not_space c _ (by simpa using hc)
        · exact ih 0 t ht

theorem NoTrailingSpace.of_suffix (l t : JSString) (h : NoTrailingSpace l) (ht : t <:+ l) :
    NoTrailingSpace t :=
  fun u hu => h u (hu.trans ht)

theorem NoTrailingSpace.last (l : JSString) (h : NoTrailingSpace l) (c : Nat)
    (hc : l.getLast? = some c) : isWhiteSpace c = false := by
  have hs : [c] <:+ l := by
    obtain ⟨init, rfl⟩ := List.getLast?_eq_some_iff.1 hc
    exact List.suffix_append _ _
  have hm := h [c] hs
  by_contra hw
  simp only [Bool.not_eq_false] at hw
  simp [matchTrailingSpace, hw, atLineEnd] at hm

theorem matchNewlines_some (t : JSString) (n : Nat) (h : matchNewlines t = some n) :
    ∃ rest, t = 10 :: 10 :: rest := by
  unfold matchNewlines at h
  simp only at h
  split at h
  · rename_i h3
    match t, h3 with
    | [], h3 => simp at h3
    | [a], h3 =>
      by_cases ha : (a == 10) = true
      · simp [List.takeWhile_cons, ha] at h3
      · simp [List.takeWhile_cons, ha] at h3
    | a :: b :: rest, h3 =>
      by_cases ha : (a == 10) = true
      · by_cases hb : (b == 10) = true
        · refine ⟨rest, ?_⟩
          rw [beq_iff_eq.1 ha, beq_iff_eq.1 hb]
        · simp [List.takeWhile_cons, ha, hb] at h3
      · simp [List.takeWhile_cons, ha] at h3
  · simp at h

theorem matchTrailingSpace_two_newlines (rest : JSString) :
    matchTrailingSpace (10 :: 10 :: rest) ≠ none := by
  have h10 : isWhiteSpace 10 = true := by decide
  intro h
  have := (matchTrailingSpace_cons_inv 10 (10 :: rest) h h10).2
  simp [atLineEnd, isLineTerminator] at this

theorem NoTrailingSpace.no_newlines_match (l : JSString) (h : NoTrailingSpace l) :
    ∀ t, t <:+ l → matchNewlines t = none := by
  intro t ht
  cases hm : matchNewlines t with
  | none => rfl
  | some n =>
    obtain ⟨rest, rfl⟩ := matchNewlines_some t n hm
    exact absurd (h _ ht) (matchTrailingSpace_two_newlines rest)

/-- What `formatText` returns: the text left by the two replacements, with its
leading white space dropped; nothing is left to trim at the end. -/
theorem formatText_eq (text : JSString) :
    formatText text = (replaceAll matchTrailingSpace [] 0
      (replaceAll matchNewlines [10, 10] 0 text)).dropWhile isWhiteSpace := by
  rw [formatText, trim]
  apply rdropWhile_eq_self_of_last
  apply NoTrailingSpace.last
  exact NoTrailingSpace.of_suffix _ _ (noTrailingSpace_replaceAll _ 0) (List.dropWhile_suffix _)

theorem noTrailingSpace_formatText (text : JSString) : NoTrailingSpace (formatText text) := by
  rw [formatText_eq]
  exact NoTrailingSpace.of_suffix _ _ (noTrailingSpace_replaceAll _ 0) (List.dropWhile_suffix _)

theorem formatText_of_normal (u : JSString) (h : NoTrailingSpace u)
    (hh : ∀ c, u.head? = some c → isWhiteSpace c = false) : formatText u = u := by
  rw [formatText, replaceAll_of_no_match _ _ _ (NoTrailingSpace.no_newlines_match u h),
    replaceAll_of_no_match _ _ _ h]
  exact trim_eq_self u hh (NoTrailingSpace.last u h)

theorem handleGenerateRequest_url (params : URLSearchParams) (st : Storage)
    (userInputField modeValue tagField : JSString) (req : RequestData) (st' : Storage)
    (h : handleGenerateRequest params st userInputField modeValue tagField = some (req, st')) :
    req.url = js "http://localhost:" ++ (getBackendPort params st).1 ++ js "/api/generate" ∧
      st' = (getBackendPort params st).2 := by
  unfold handleGenerateRequest at h
  simp only at h
  split at h
  · cases h
  · simp only [Option.some.injEq, Prod.mk.injEq] at h
    obtain ⟨h1, h2⟩ := h
    exact ⟨by rw [← h1], h2.symm⟩

theorem getBackendPort_ne_nil (params : URLSearchParams) (st : Storage) :
    (getBackendPort params st).1 ≠ [] := by
  cases hp : params.get (js "backendPort") with
  | none =>
    rw [getBackendPort_no_param params st (Or.inl hp)]
    cases hs : st.getItem keyBackendPort with
    | none => simp only [orElse]; decide
    | some w =>
      by_cases hw : w = []
      · rw [hw]; simp only [orElse]; decide
      · rw [orElse_some _ _ hw]; exact hw
  | some v =>
    by_cases hv : v = []
    · rw [getBackendPort_no_param params st (Or.inr (by rw [hp, hv]))]
      cases hs : st.getItem keyBackendPort with
      | none => simp only [orElse]; decide
      | some w =>
        by_cases hw : w = []
        · rw [hw]; simp only [orElse]; decide
        · rw [orElse_some _ _ hw]; exact hw
    · rw [getBackendPort_of_param params st v hp hv]
      exact hv

/-- A port read from integer-valued inputs is integer-valued, and so is what
`getBackendPort` leaves in the store. -/
theorem getBackendPort_preserves_integer (params : URLSearchParams) (st : Storage)
    (hparam : ∀ v, params.get (js "backendPort") = some v → v ≠ [] →
      isIntegerString v = true)
    (hstore : ∀ w, st.getItem (js "backendPort") = some w → isIntegerString w = true) :
    isIntegerString (getBackendPort params st).1 = true ∧
      (∀ w, (getBackendPort params st).2.getItem (js "backendPort") = some w →
        isIntegerString w = true) ∧
      ∀ (userInputField modeValue tagField : JSString) (req : RequestData) (st' : Storage),
        handleGenerateRequest params st userInputField modeValue tagField = some (req, st') →
        ∃ port, isIntegerString port = true ∧
          req.url = js "http://localhost:" ++ port ++ js "/api/generate" := by
  have hdefault : isIntegerString (js "5000") = true := by decide
  have hport : isIntegerString (getBackendPort params st).1 = true ∧
      ∀ w, (getBackendPort params st).2.getItem (js "backendPort") = some w →
        isIntegerString w = true := by
    by_cases hp : ∃ v, params.get (js "backendPort") = some v ∧ v ≠ []
    · obtain ⟨v, hv, hne⟩ := hp
      rw [getBackendPort_of_param params st v hv hne]
      refine ⟨hparam v hv hne, fun w hw => ?_⟩
      have hget : (st.setItem keyBackendPort v).getItem (js "backendPort") = some v :=
        getItem_setItem _ _ _
      rw [hget] at hw
      cases hw
      exact hparam v hv hne
    · have hp' : params.get (js "backendPort") = none ∨
          params.get (js "backendPort") = some [] := by
        cases hg : params.get (js "backendPort") with
        | none => exact Or.inl rfl
        | some v =>
          by_cases hv : v = []
          · exact Or.inr (by rw [hv])
          · exact absurd ⟨v, hg, hv⟩ hp
      rw [getBackendPort_no_param params st hp']
      refine ⟨?_, hstore⟩
      cases hs : st.getItem keyBackendPort with
      | none => exact hdefault
      | some w =>
        have hw := hstore w hs
        have hne : w ≠ [] := by
          intro h0
          rw [h0] at hw
          cases hw
        show isIntegerString (orElse (some w) (js "5000")) = true
        rw [orElse_some _ _ hne]
        exact hw
  refine ⟨hport.1, hport.2, ?_⟩
  intro userInputField modeValue tagField req st' hreq
  exact ⟨_, hport.1,
    (handleGenerateRequest_url params st userInputField modeValue tagField req st' hreq).1⟩

/-- The port `getBackendPort` returns is the query parameter, the stored value
or the default, as it stands. -/
theorem getBackendPort_verbatim (params : URLSearchParams) (st : Storage) :
    params.get (js "backendPort") = some (getBackendPort params st).1 ∨
      st.getItem (js "backendPort") = some (getBackendPort params st).1 ∨
      (getBackendPort params st).1 = js "5000" := by
  by_cases hp : ∃ v, params.get (js "backendPort") = some v ∧ v ≠ []
  · obtain ⟨v, hv, hne⟩ := hp
    rw [getBackendPort_of_param params st v hv hne]
    exact Or.inl hv
  · have hp' : params.get (js "backendPort") = none ∨
        params.get (js "backendPort") = some [] := by
      cases hg : params.get (js "backendPort") with
      | none => exact Or.inl rfl
      | some v =>
        by_cases hv : v = []
        · exact Or.inr (by rw [hv])
        · exact absurd ⟨v, hg, hv⟩ hp
    rw [getBackendPort_no_param params st hp']
    right
    cases hs : st.getItem keyBackendPort with
    | none => exact Or.inr rfl
    | some w =>
      by_cases hw : w = []
      · right
        rw [hw]
        rfl
      · left
        show st.getItem keyBackendPort = some (orElse (some w) (js "5000"))
        rw [orElse_some _ _ hw]
        exact hs

theorem handleGenerateRequest_posts (params : URLSearchParams) (st : Storage)
    (userInputField modeValue tagField : JSString) (h : trim userInputField ≠ []) :
    ∃ req st', handleGenerateRequest params st userInputField modeValue tagField
        = some (req, st') ∧
      req.url = js "http://localhost:" ++ (getBackendPort params st).1 ++ js "/api/generate" := by
  obtain ⟨req, st', hreq, -⟩ :=
    handleGenerateRequest_npcTags params st userInputField modeValue tagField h
  exact ⟨req, st', hreq,
    (handleGenerateRequest_url params st userInputField modeValue tagField req st' hreq).1⟩

/-! ## Lemmas on the response -/

theorem getProperty_of_ne_null (d : JsonValue) (key : JSString) (hd : d ≠ JsonValue.null) :
    ∃ v, getProperty d key = Except.ok v := by
  cases d with
  | null => exact absurd rfl hd
  | bool b => exact ⟨none, rfl⟩
  | number x => exact ⟨none, rfl⟩
  | string t => exact ⟨none, rfl⟩
  | array items => exact ⟨none, rfl⟩
  | object members => exact ⟨lastMember members key, rfl⟩

theorem getProperty_of_not_object (d : JsonValue) (key : JSString) (v : Option JsonValue)
    (hd : ∀ members, d ≠ JsonValue.object members) (h : getProperty d key = Except.ok v) :
    v = none := by
  cases d with
  | null => cases h
  | bool b => cases h; rfl
  | number x => cases h; rfl
  | string t => cases h; rfl
  | array items => cases h; rfl
  | object members => exact absurd rfl (hd members)

theorem truthyValue_eq_false_iff (v : Option JsonValue) :
    truthyValue v = false ↔
      v = none ∨ v = some JsonValue.null ∨ v = some (JsonValue.bool false) ∨
      (∃ x, v = some (JsonValue.number x) ∧ x.isZero = true) ∨
      v = some (JsonValue.string []) := by
  cases v with
  | none => simp [truthyValue]
  | some w =>
    cases w with
    | null => simp [truthyValue, JsonValue.truthy]
    | bool b => cases b <;> simp [truthyValue, JsonValue.truthy]
    | number x => simp [truthyValue, JsonValue.truthy]
    | string t => cases t <;> simp [truthyValue, JsonValue.truthy]
    | array items => simp [truthyValue, JsonValue.truthy]
    | object members => simp [truthyValue, JsonValue.truthy]

theorem errorOrGeneric_eq (d : JsonValue) (err : Option JsonValue)
    (he : getProperty d (js "error") = Except.ok err) :
    (∀ v, err = some v → v.truthy = true → errorOrGeneric d = Except.ok v) ∧
      (truthyValue err = false →
        errorOrGeneric d = Except.ok (JsonValue.string genericFailure)) := by
  unfold errorOrGeneric
  rw [he]
  refine ⟨fun v hv ht => ?_, fun hf => ?_⟩
  · subst hv
    simp [ht]
  · cases err with
    | none => rfl
    | some w =>
      have : w.truthy = false := hf
      simp [this]

theorem handleGenerateSuccess_eq (d : JsonValue) (lua : Option JsonValue)
    (hl : getProperty d (js "luaScript") = Except.ok lua) :
    (∀ v, lua = some v → v.truthy = true → handleGenerateSuccess d = Except.ok v) ∧
      (truthyValue lua = false → handleGenerateSuccess d = errorOrGeneric d) := by
  unfold handleGenerateSuccess
  rw [hl]
  refine ⟨fun v hv ht => ?_, fun hf => ?_⟩
  · subst hv
    simp [ht]
  · cases lua with
    | none => rfl
    | some w =>
      have : w.truthy = false := hf
      simp [this]

/-! ## Credential lifecycle: the claims -/

/-- C1. `saveApiKey` fails (warning status), leaving the store and `config.apiKey`
unchanged, exactly when the trimmed field input is empty or contains `'...'` and
has fewer than 20 code units; for every other field input it stores exactly the
trimmed input under `'openai_api_key'` (touching no other key) and sets
`config.apiKey` to that same trimmed input. -/
theorem saveApiKey_contract (s : State) :
    ((saveApiKey s).statusClass = StatusClass.warning ↔
        (trim s.fieldValue = [] ∨
          (js "..." <:+: trim s.fieldValue ∧ (trim s.fieldValue).length < 20))) ∧
      ((trim s.fieldValue = [] ∨
          (js "..." <:+: trim s.fieldValue ∧ (trim s.fieldValue).length < 20)) →
        (saveApiKey s).store = s.store ∧ (saveApiKey s).apiKey = s.apiKey) ∧
      (¬ (trim s.fieldValue = [] ∨
          (js "..." <:+: trim s.fieldValue ∧ (trim s.fieldValue).length < 20)) →
        (saveApiKey s).store = s.store.setItem (js "openai_api_key") (trim s.fieldValue) ∧
        (saveApiKey s).store.getItem (js "openai_api_key") = some (trim s.fieldValue) ∧
        (saveApiKey s).apiKey = trim s.fieldValue) := by
  refine ⟨⟨fun hw => ?_, fun h => (saveApiKey_rejected s h).2.2.2⟩,
    fun h => ⟨(saveApiKey_rejected s h).1, (saveApiKey_rejected s h).2.1⟩, fun h => ?_⟩
  · by_contra h
    have hacc := saveApiKey_accepted s h
    rw [hacc] at hw
    cases hw
  · have hacc := saveApiKey_accepted s h
    rw [hacc]
    exact ⟨rfl, getItem_setItem _ _ _, rfl⟩

/-- C1: an instance. A full-length credential typed with surrounding blanks is
stored trimmed. -/
theorem saveApiKey_contract_witness :
    (saveApiKey { State.initial Storage.empty with
        fieldValue := js "  sk-abcdefghijklmnopqrstuvwxyz " }).store.getItem
        (js "openai_api_key") = some (js "sk-abcdefghijklmnopqrstuvwxyz") :=
  ((saveApiKey_contract { State.initial Storage.empty with
      fieldValue := js "  sk-abcdefghijklmnopqrstuvwxyz " }).2.2 (by decide)).2.1

/-- C2, as stated, fails. A non-empty credential that contains `'...'` and is
shorter than 20 code units is not stored at all, and a credential with a leading
blank is stored without it, so neither round-trips unchanged. -/
theorem save_then_load_roundtrip_fails :
    (loadApiKey (saveApiKey { State.initial Storage.empty with
        fieldValue := js "sk-a...b" })).store.getItem (js "openai_api_key") = none ∧
    (loadApiKey (saveApiKey { State.initial Storage.empty with
        fieldValue := js " sk-abcdefghijklmnop" })).store.getItem (js "openai_api_key")
      = some (js "sk-abcdefghijklmnop") ∧
    (loadApiKey (saveApiKey { State.initial Storage.empty with
        fieldValue := js " sk-abcdefghijklmnop" })).store.getItem (js "openai_api_key")
      ≠ some (js " sk-abcdefghijklmnop") := by
  decide

/-- C2, amended. For every field input `r` whose trimmed form is non-empty and is
not both containing `'...'` and shorter than 20 code units, `saveApiKey` followed
by `loadApiKey` leaves the store holding exactly the trimmed input (hence `r`
itself when `r` has no surrounding white space), `config.apiKey` equal to it,
and the field showing its first 8 code units, `'...'`, and its last 4. -/
theorem save_then_load_roundtrip (s : State) (r : JSString)
    (hne : trim r ≠ [])
    (hmask : ¬ (js "..." <:+: trim r ∧ (trim r).length < 20)) :
    (loadApiKey (saveApiKey { s with fieldValue := r })).store.getItem (js "openai_api_key")
        = some (trim r) ∧
      (trim r = r →
        (loadApiKey (saveApiKey { s with fieldValue := r })).store.getItem
          (js "openai_api_key") = some r) ∧
      (loadApiKey (saveApiKey { s with fieldValue := r })).apiKey = trim r ∧
      (loadApiKey (saveApiKey { s with fieldValue := r })).fieldValue
        = (trim r).take 8 ++ js "..." ++ (trim r).drop ((trim r).length - 4) := by
  have hacc := saveApiKey_accepted { s with fieldValue := r }
    (by simp only [not_or]; exact ⟨hne, hmask⟩)
  have hload : loadApiKey (saveApiKey { s with fieldValue := r }) =
      { saveApiKey { s with fieldValue := r } with
        apiKey := trim r
        fieldValue := maskKey (trim r)
        statusText := js "已保存API Key: " ++ maskKey (trim r)
        statusClass := StatusClass.saved } := by
    rw [hacc]
    simp only [loadApiKey, getItem_setItem, (truthy_iff _).2 hne, if_true]
  have hget : (loadApiKey (saveApiKey { s with fieldValue := r })).store.getItem
      (js "openai_api_key") = some (trim r) := by
    rw [hload, hacc]
    exact getItem_setItem _ _ _
  refine ⟨hget, fun h => ?_, ?_, ?_⟩
  · rw [hget, h]
  · rw [hload]
  · rw [hload]
    exact maskKey_eq _

/-- C2, amended: an instance. -/
theorem save_then_load_roundtrip_witness :
    (loadApiKey (saveApiKey { State.initial Storage.empty with
        fieldValue := js "sk-abcdefghijklmnopqrstuvwxyz" })).fieldValue
      = js "sk-abcde...wxyz" :=
  (save_then_load_roundtrip (State.initial Storage.empty)
    (js "sk-abcdefghijklmnopqrstuvwxyz") (by decide) (by decide)).2.2.2

/-- C3. The masked form is never persisted: whatever `k` is, `saveApiKey` with
`mask(k)` in the field is rejected (warning status) and leaves the store and
`config.apiKey` unchanged; and no credential that `saveApiKey` accepts equals
its own masked form, nor the masked form of any string. -/
theorem masked_form_never_persisted (s : State) (k : JSString) :
    (saveApiKey { s with fieldValue := maskKey k }).statusClass = StatusClass.warning ∧
      (saveApiKey { s with fieldValue := maskKey k }).store = s.store ∧
      (saveApiKey { s with fieldValue := maskKey k }).apiKey = s.apiKey ∧
      ((saveApiKey s).statusClass ≠ StatusClass.warning →
        (saveApiKey s).store.getItem (js "openai_api_key") = some (trim s.fieldValue) ∧
        trim s.fieldValue ≠ maskKey (trim s.fieldValue) ∧
        trim s.fieldValue ≠ maskKey k) := by
  have hrej := saveApiKey_rejected { s with fieldValue := maskKey k }
    (Or.inr ⟨trim_maskKey_has_separator k, lt_of_le_of_lt (trim_maskKey_length k) (by decide)⟩)
  refine ⟨hrej.2.2.2, hrej.1, hrej.2.1, fun hw => ?_⟩
  have hnot : ¬ (trim s.fieldValue = [] ∨
      (maskSeparator <:+: trim s.fieldValue ∧ (trim s.fieldValue).length < 20)) :=
    fun h => hw (saveApiKey_rejected s h).2.2.2
  have hmask : ∀ k', trim s.fieldValue ≠ maskKey k' := by
    intro k' he
    apply hnot
    right
    rw [he]
    exact ⟨maskKey_has_separator k', by have := maskKey_length k'; omega⟩
  refine ⟨?_, hmask _, hmask _⟩
  rw [saveApiKey_accepted s hnot]
  exact getItem_setItem _ _ _

/-- C3: an instance. Saving the mask of a stored key is rejected. -/
theorem masked_form_never_persisted_witness :
    (saveApiKey { State.initial Storage.empty with
        fieldValue := maskKey (js "sk-abcdefghijklmnopqrstuvwxyz") }).statusClass
      = StatusClass.warning :=
  (masked_form_never_persisted (State.initial Storage.empty)
    (js "sk-abcdefghijklmnopqrstuvwxyz")).1

/-- C4. Start from the freshly evaluated page (`config.apiKey` is `''`) with a
store that is empty or holds a credential that some earlier `saveApiKey` call
accepted, and run `loadApiKey`. Then after every sequence of `saveApiKey`,
`clearApiKey` and `toggleApiKeyVisibility` calls, with arbitrary text typed
into the field in between, `config.apiKey` equals the value stored under
`'openai_api_key'` (the empty string when nothing is stored), and it is not a
masked display string: neither the mask of the stored credential nor the mask
of any other string. -/
theorem config_apiKey_is_raw_credential (s0 : State) (acts : List Action)
    (h0 : s0.apiKey = [])
    (hstore : s0.store.getItem (js "openai_api_key") = none ∨
      ∃ p : State, (saveApiKey p).statusClass = StatusClass.saved ∧
        s0.store.getItem (js "openai_api_key")
          = (saveApiKey p).store.getItem (js "openai_api_key")) :
    (run (loadApiKey s0) acts).apiKey
        = ((run (loadApiKey s0) acts).store.getItem (js "openai_api_key")).getD [] ∧
      (run (loadApiKey s0) acts).apiKey ≠ maskKey (run (loadApiKey s0) acts).apiKey ∧
      ∀ k, (run (loadApiKey s0) acts).apiKey ≠ maskKey k := by
  have hinv0 : Inv (loadApiKey s0) := by
    apply inv_loadApiKey s0 h0
    rcases hstore with hn | ⟨p, hp, he⟩
    · exact Or.inl hn
    · have := accepted_of_saved p hp
      exact Or.inr ⟨_, he.trans this.1, this.2⟩
  have hinv := inv_run acts _ hinv0
  refine ⟨?_, inv_not_mask _ hinv _, inv_not_mask _ hinv⟩
  rcases hinv with ⟨h1, h2⟩ | ⟨c, h1, h2, -⟩
  · have h1' : (run (loadApiKey s0) acts).store.getItem (js "openai_api_key") = none := h1
    rw [h1', h2]
    rfl
  · have h1' : (run (loadApiKey s0) acts).store.getItem (js "openai_api_key") = some c := h1
    rw [h1', h2]
    rfl

/-- C4: an instance. A stored credential is loaded, revealed, overwritten by a
rejected and then an accepted input, and hidden again. -/
theorem config_apiKey_is_raw_credential_witness :
    (run (loadApiKey (State.initial (Storage.empty.setItem (js "openai_api_key")
        (js "sk-abcdefghijklmnopqrstuvwxyz"))))
      [Action.toggle, Action.typeText (js "sk-abcde...wxyz"), Action.save,
        Action.typeText (js "sk-0123456789abcdefghij"), Action.save,
        Action.toggle, Action.toggle]).apiKey
      ≠ maskKey (run (loadApiKey (State.initial (Storage.empty.setItem (js "openai_api_key")
        (js "sk-abcdefghijklmnopqrstuvwxyz"))))
      [Action.toggle, Action.typeText (js "sk-abcde...wxyz"), Action.save,
        Action.typeText (js "sk-0123456789abcdefghij"), Action.save,
        Action.toggle, Action.toggle]).apiKey :=
  (config_apiKey_is_raw_credential
    (State.initial (Storage.empty.setItem (js "openai_api_key")
      (js "sk-abcdefghijklmnopqrstuvwxyz")))
    [Action.toggle, Action.typeText (js "sk-abcde...wxyz"), Action.save,
      Action.typeText (js "sk-0123456789abcdefghij"), Action.save,
      Action.toggle, Action.toggle]
    rfl
    (Or.inr ⟨{ State.initial Storage.empty with
        fieldValue := js "sk-abcdefghijklmnopqrstuvwxyz" }, by decide, by decide⟩)).2.1

example : npcTags (js "encounter") (js "a, b ,,c") = some [js "a", js "b", js "c"] := by decide
example : npcTags (js "map") (js "a, b ,,c") = none := by decide
example : formatText (js "a\n\n\n\nb") = js "a\nb" := by decide
example : formatText (js "a  \n\n\n\n  b \n") = js "a\n  b" := by decide
example : replaceAll matchNewlines [10, 10] 0 (js "a\n\n\n\nb\n\nc") = js "a\n\nb\n\nc" := by decide
example : (getBackendPort [(js "backendPort", js "6000")] (Storage.empty.setItem keyBackendPort (js "5000"))).1 = js "6000" := by decide
example : jsLines mockScriptHead ≠ [] := by decide
/-! ## Generation request: the claims -/

/-- C5. Whenever `handleGenerate` gets past its validation (the trimmed
description is non-empty) it builds a request whose `npcTags` is `null` for every
mode other than `'encounter'`, whatever the tag field holds; in `'encounter'`
mode with a tag field whose trimmed content is non-empty it is the list, in
order, of the comma-separated pieces of the trimmed field, each trimmed, the
empty ones dropped, so that no element is empty, starts or ends with white
space, or contains a comma; and for the field `'a, b ,,c'` it is
`['a', 'b', 'c']`. -/
theorem handleGenerate_npcTags (params : URLSearchParams) (st : Storage)
    (userInputField modeValue tagField : JSString) (hinput : trim userInputField ≠ []) :
    ∃ req st', handleGenerateRequest params st userInputField modeValue tagField
        = some (req, st') ∧
      (modeValue ≠ js "encounter" → req.npcTags = none) ∧
      (modeValue = js "encounter" → trim tagField ≠ [] →
        req.npcTags
            = some ((((trim tagField).splitOn 44).map trim).filter (fun t => !t.isEmpty)) ∧
          ∀ tags, req.npcTags = some tags → ∀ t ∈ tags,
            t ≠ [] ∧ 44 ∉ t ∧
            (∀ c, t.head? = some c → isWhiteSpace c = false) ∧
            (∀ c, t.getLast? = some c → isWhiteSpace c = false)) ∧
      (modeValue = js "encounter" → tagField = js "a, b ,,c" →
        req.npcTags = some [js "a", js "b", js "c"]) := by
  obtain ⟨req, st', hreq, htags⟩ :=
    handleGenerateRequest_npcTags params st userInputField modeValue tagField hinput
  refine ⟨req, st', hreq, fun hm => ?_, fun hm ht => ⟨?_, ?_⟩, fun hm ht => ?_⟩
  · rw [htags]
    exact npcTags_other_mode _ _ hm
  · rw [htags, hm, npcTags_encounter _ ht, split_eq_splitOn]
    rfl
  · intro tags htg t hmem
    rw [htags, hm, npcTags_encounter _ ht] at htg
    cases htg
    simp only [List.mem_filter, List.mem_map] at hmem
    obtain ⟨⟨piece, hp, rfl⟩, hne⟩ := hmem
    refine ⟨(truthy_iff _).1 hne, fun hc => ?_, trim_head piece, trim_last piece⟩
    exact sep_not_mem_split 44 _ piece hp (mem_of_mem_trim _ _ hc)
  · rw [htags, hm, ht]
    decide

/-- C5: an instance, in `'encounter'` mode with more white space around. -/
theorem handleGenerate_npcTags_witness :
    ∃ req st', handleGenerateRequest [] Storage.empty (js "a tavern theft")
        (js "encounter") (js "  guard ,thief,, innkeeper ,") = some (req, st') ∧
      req.npcTags = some [js "guard", js "thief", js "innkeeper"] := by
  obtain ⟨req, st', h, -, h2, -⟩ :=
    handleGenerate_npcTags [] Storage.empty (js "a tavern theft") (js "encounter")
      (js "  guard ,thief,, innkeeper ,") (by decide)
  exact ⟨req, st', h, (h2 rfl (by decide)).1.trans (by decide)⟩

/-- C6, as stated, fails. With the URL `?backendPort=` the query has a
`backendPort` parameter, whose value is the empty string, yet `getBackendPort`
returns the stored `'5000'` and leaves the store as it was. -/
theorem getBackendPort_empty_param :
    URLSearchParams.get [(js "backendPort", js "")] (js "backendPort") = some (js "") ∧
      (getBackendPort [(js "backendPort", js "")]
        (Storage.empty.setItem (js "backendPort") (js "5000"))).1 = js "5000" ∧
      (getBackendPort [(js "backendPort", js "")]
        (Storage.empty.setItem (js "backendPort") (js "5000"))).1 ≠ js "" ∧
      (getBackendPort [(js "backendPort", js "")]
        (Storage.empty.setItem (js "backendPort") (js "5000"))).2.getItem (js "backendPort")
        = some (js "5000") := by
  decide

/-- C6, amended. `getBackendPort` resolves the port with precedence non-empty
query parameter, then non-empty stored preference, then default: when the
`backendPort` query parameter is a non-empty string it returns that value and
stores it under `'backendPort'`; when the parameter is absent or empty it
returns the stored `'backendPort'` value if there is a non-empty one, and
`'5000'` otherwise, in both cases leaving the store unchanged. With query
parameter `6000` and stored preference `5000` the result is `6000` and the
stored preference is `6000` afterwards. The `DOMContentLoaded` handler leaves
the same store. -/
theorem getBackendPort_precedence (params : URLSearchParams) (st : Storage) :
    (∀ v, params.get (js "backendPort") = some v → v ≠ [] →
        (getBackendPort params st).1 = v ∧
        (getBackendPort params st).2 = st.setItem (js "backendPort") v ∧
        (getBackendPort params st).2.getItem (js "backendPort") = some v) ∧
      ((params.get (js "backendPort") = none ∨ params.get (js "backendPort") = some []) →
        (getBackendPort params st).2 = st ∧
        (∀ w, st.getItem (js "backendPort") = some w → w ≠ [] →
          (getBackendPort params st).1 = w) ∧
        ((st.getItem (js "backendPort") = none ∨ st.getItem (js "backendPort") = some []) →
          (getBackendPort params st).1 = js "5000")) ∧
      ((getBackendPort [(js "backendPort", js "6000")]
          (Storage.empty.setItem (js "backendPort") (js "5000"))).1 = js "6000" ∧
        (getBackendPort [(js "backendPort", js "6000")]
          (Storage.empty.setItem (js "backendPort") (js "5000"))).2.getItem (js "backendPort")
          = some (js "6000")) ∧
      onDOMContentLoaded params st = (getBackendPort params st).2 := by
  refine ⟨fun v hv hne => ?_, fun hv => ?_, by decide, ?_⟩
  · rw [getBackendPort_of_param params st v hv hne]
    exact ⟨rfl, rfl, getItem_setItem _ _ _⟩
  · rw [getBackendPort_no_param params st hv]
    refine ⟨rfl, fun w hw hne => ?_, fun hw => ?_⟩
    · show orElse (st.getItem keyBackendPort) (js "5000") = w
      rw [show st.getItem keyBackendPort = some w from hw]
      exact orElse_some _ _ hne
    · exact orElse_falsy _ _ hw
  · unfold onDOMContentLoaded getBackendPort
    simp only
    split <;> rfl

/-- C6, amended: an instance with two `backendPort` parameters; the first wins. -/
theorem getBackendPort_precedence_witness :
    (getBackendPort [(js "debug", js "1"), (js "backendPort", js "6000"),
        (js "backendPort", js "7000")] Storage.empty).1 = js "6000" :=
  ((getBackendPort_precedence [(js "debug", js "1"), (js "backendPort", js "6000"),
      (js "backendPort", js "7000")] Storage.empty).1 (js "6000") (by decide) (by decide)).1

/-- C7. `generateMockScript` is a fixed template around `u.substring(0, 100)`:
the result is the fixed head, the first 100 code units of `u`, and the fixed
tail; it is never empty; it contains the first 100 code units of `u` (all of
`u` when `u` is shorter) as a contiguous substring; and two inputs that agree on
their first 100 code units give the same script. -/
theorem generateMockScript_template (u : JSString) :
    generateMockScript u = jsLines mockScriptHead ++ u.take 100 ++ jsLines mockScriptTail ∧
      generateMockScript u ≠ [] ∧
      u.take 100 <:+: generateMockScript u ∧
      (u.length ≤ 100 → u <:+: generateMockScript u) ∧
      ∀ v : JSString, v.take 100 = u.take 100 →
        generateMockScript v = generateMockScript u := by
  have hform : ∀ w : JSString, generateMockScript w
      = jsLines mockScriptHead ++ w.take 100 ++ jsLines mockScriptTail := by
    intro w
    have h := substring_zero w 100
    simp only [Nat.cast_ofNat] at h
    rw [generateMockScript, h]
  have hhead : jsLines mockScriptHead ≠ [] := by decide
  refine ⟨hform u, ?_, ?_, fun hlen => ?_, fun v hv => ?_⟩
  · rw [hform u]
    intro h
    simp only [List.append_eq_nil] at h
    exact hhead h.1.1
  · rw [hform u]
    exact ⟨_, _, rfl⟩
  · rw [hform u, List.take_of_length_le hlen]
    exact ⟨_, _, rfl⟩
  · rw [hform u, hform v, hv]

/-- C7: an instance. A description of 101 code units and its first 100 give the
same script. -/
theorem generateMockScript_template_witness :
    generateMockScript (List.replicate 100 97 ++ [98])
      = generateMockScript (List.replicate 100 97) :=
  (generateMockScript_template (List.replicate 100 97)).2.2.2.2
    (List.replicate 100 97 ++ [98]) (by decide)

/-- C8, as stated, fails. A body whose `luaScript` field holds the empty string
is shown through its `error` field, or through the generic message when it has
no `error` field, not through `luaScript`; and for the body `null` reading
`data.luaScript` throws, so nothing is handed to `displayResult`. -/
theorem displayed_value_not_by_presence :
    handleGenerateSuccess (JsonValue.object
        [(js "luaScript", JsonValue.string (js "")),
          (js "error", JsonValue.string (js "quota exceeded"))])
        = Except.ok (JsonValue.string (js "quota exceeded")) ∧
      getProperty (JsonValue.object
        [(js "luaScript", JsonValue.string (js "")),
          (js "error", JsonValue.string (js "quota exceeded"))]) (js "luaScript")
        = Except.ok (some (JsonValue.string (js ""))) ∧
      handleGenerateSuccess (JsonValue.object [(js "luaScript", JsonValue.string (js ""))])
        = Except.ok (JsonValue.string (js "生成失败，请重试")) ∧
      handleGenerateSuccess JsonValue.null = Except.error JSError.typeError := by
  refine ⟨rfl, rfl, rfl, rfl⟩

/-- C8, amended. On an HTTP-success response whose parsed JSON body `d` is not
`null`, both property reads succeed, and the value handed to `displayResult` is
`d.luaScript` whenever that is truthy (for a string: non-empty), otherwise
`d.error` whenever that is truthy, and the fixed generic failure message when
each of the two is absent or falsy; falsy means absent, `null`, `false`, zero
or the empty string. A body that is not an object has neither field. -/
theorem displayed_value_precedence (d : JsonValue) (hd : d ≠ JsonValue.null) :
    ∃ lua err,
      getProperty d (js "luaScript") = Except.ok lua ∧
      getProperty d (js "error") = Except.ok err ∧
      (∀ v, lua = some v → v.truthy = true → handleGenerateSuccess d = Except.ok v) ∧
      (∀ l, lua = some (JsonValue.string l) → l ≠ [] →
        handleGenerateSuccess d = Except.ok (JsonValue.string l)) ∧
      (truthyValue lua = false →
        (∀ v, err = some v → v.truthy = true → handleGenerateSuccess d = Except.ok v) ∧
        (∀ e, err = some (JsonValue.string e) → e ≠ [] →
          handleGenerateSuccess d = Except.ok (JsonValue.string e)) ∧
        (truthyValue err = false →
          handleGenerateSuccess d = Except.ok (JsonValue.string (js "生成失败，请重试")))) ∧
      ((∀ members, d ≠ JsonValue.object members) → lua = none ∧ err = none) ∧
      (∀ v : Option JsonValue, truthyValue v = false ↔
        v = none ∨ v = some JsonValue.null ∨ v = some (JsonValue.bool false) ∨
        (∃ x, v = some (JsonValue.number x) ∧ x.isZero = true) ∨
        v = some (JsonValue.string [])) := by
  obtain ⟨lua, hl⟩ := getProperty_of_ne_null d (js "luaScript") hd
  obtain ⟨err, he⟩ := getProperty_of_ne_null d (js "error") hd
  have hstr : ∀ t : JSString, t ≠ [] → (JsonValue.string t).truthy = true := by
    intro t ht
    cases t with
    | nil => exact absurd rfl ht
    | cons c rest => rfl
  have h1 := handleGenerateSuccess_eq d lua hl
  have h2 := errorOrGeneric_eq d err he
  refine ⟨lua, err, hl, he, h1.1, fun l hlua hne => h1.1 _ hlua (hstr l hne), fun hf => ?_,
    fun hobj => ⟨getProperty_of_not_object d _ lua hobj hl,
      getProperty_of_not_object d _ err hobj he⟩,
    truthyValue_eq_false_iff⟩
  rw [h1.2 hf]
  exact ⟨h2.1, fun e herr hne => h2.1 _ herr (hstr e hne), h2.2⟩

/-- C8, amended: an instance with both fields set. -/
theorem displayed_value_precedence_witness :
    handleGenerateSuccess (JsonValue.object
        [(js "luaScript", JsonValue.string (js "return map")),
          (js "error", JsonValue.string (js "warning"))])
      = Except.ok (JsonValue.string (js "return map")) := by
  obtain ⟨lua, err, hl, -, -, h, -⟩ :=
    displayed_value_precedence (JsonValue.object
      [(js "luaScript", JsonValue.string (js "return map")),
        (js "error", JsonValue.string (js "warning"))]) (fun h => by cases h)
  have hget : getProperty (JsonValue.object
      [(js "luaScript", JsonValue.string (js "return map")),
        (js "error", JsonValue.string (js "warning"))]) (js "luaScript")
      = Except.ok (some (JsonValue.string (js "return map"))) := rfl
  rw [hget] at hl
  cases hl
  exact h (js "return map") rfl (by decide)

/-! ## Text normalisation: the claims -/

/-- C9. The normalisation of `handleFormat` (replace `/\n{3,}/g` by two line
feeds, delete every `/\s+$/gm` match, trim) is idempotent: normalising the
normalised text gives it back unchanged, and so formatting the re-rendered text
again re-renders the same text. -/
theorem formatText_idempotent (text : JSString) :
    formatText (formatText text) = formatText text ∧
      handleFormat (handleFormat (some text)) = handleFormat (some text) := by
  have h : formatText (formatText text) = formatText text := by
    apply formatText_of_normal _ (noTrailingSpace_formatText text)
    intro c hc
    rw [formatText_eq] at hc
    exact dropWhile_head_neg _ _ c hc
  exact ⟨h, by simp only [handleFormat, Option.map_some', h]⟩

/-- C10, at a failing input. For the displayed text `a`, four line feeds, `b`
(three blank lines between two non-blank lines) the first replacement leaves
`a`, two line feeds, `b`, and the second replacement then deletes the first of
the two line feeds, since `\s+` matches it and `$` holds before the second one:
the re-rendered text is `a`, one line feed, `b`, with no blank line, where one
blank line was to remain. -/
theorem formatText_drops_blank_lines :
    replaceAll matchNewlines [10, 10] 0 (js "a\n\n\n\nb") = js "a\n\nb" ∧
      replaceAll matchTrailingSpace [] 0 (js "a\n\nb") = js "a\nb" ∧
      formatText (js "a\n\n\n\nb") = js "a\nb" ∧
      formatText (js "a\n\n\n\nb") ≠ js "a\n\nb" ∧
      handleFormat (some (js "a\n\n\n\nb")) = some (js "a\nb") := by
  decide

/-- No blank line survives `handleFormat`: the re-rendered text never has two
line feeds in a row. -/
theorem formatText_no_blank_line (text rest : JSString) :
    ¬ (10 :: 10 :: rest <:+ formatText text) :=
  fun h => matchTrailingSpace_two_newlines rest (noTrailingSpace_formatText text _ h)

/-! ## Backend endpoint: the claim -/

/-- C11, as stated, fails. With the URL `?backendPort=abc` and an empty store
`getBackendPort` returns `'abc'` and stores it, and `handleGenerate` posts to
`http://localhost:abc/api/generate`: nothing checks that the value is a
number. -/
theorem getBackendPort_not_integer :
    (getBackendPort [(js "backendPort", js "abc")] Storage.empty).1 = js "abc" ∧
      isIntegerString (getBackendPort [(js "backendPort", js "abc")] Storage.empty).1
        = false ∧
      (getBackendPort [(js "backendPort", js "abc")] Storage.empty).2.getItem
        (js "backendPort") = some (js "abc") ∧
      (handleGenerateRequest [(js "backendPort", js "abc")] Storage.empty (js "a village")
        (js "map") (js "")).map (fun r => r.1.url)
        = some (js "http://localhost:abc/api/generate") := by
  decide

/-- C11, amended. For every query string and every store, the port
`getBackendPort` returns is a non-empty string, taken as it stands from the
`backendPort` query parameter, from the store, or from the default `'5000'`,
and whenever `handleGenerate` gets past its validation it posts to
`http://localhost:` followed by that port and `/api/generate`. When moreover
the `backendPort` query parameter, if given and non-empty, is a string-encoded
integer, and the value stored under `'backendPort'`, if any, is one, then the
returned port is a string-encoded integer, so is whatever is stored under
`'backendPort'` afterwards, and the endpoint has the form
`http://localhost:<integer>/api/generate`. -/
theorem getBackendPort_integer (params : URLSearchParams) (st : Storage) :
    (getBackendPort params st).1 ≠ [] ∧
      (params.get (js "backendPort") = some (getBackendPort params st).1 ∨
        st.getItem (js "backendPort") = some (getBackendPort params st).1 ∨
        (getBackendPort params st).1 = js "5000") ∧
      (∀ userInputField modeValue tagField : JSString, trim userInputField ≠ [] →
        ∃ req st', handleGenerateRequest params st userInputField modeValue tagField
            = some (req, st') ∧
          req.url
            = js "http://localhost:" ++ (getBackendPort params st).1 ++ js "/api/generate") ∧
      ((∀ v, params.get (js "backendPort") = some v → v ≠ [] → isIntegerString v = true) →
        (∀ w, st.getItem (js "backendPort") = some w → isIntegerString w = true) →
        isIntegerString (getBackendPort params st).1 = true ∧
        (∀ w, (getBackendPort params st).2.getItem (js "backendPort") = some w →
          isIntegerString w = true) ∧
        ∀ (userInputField modeValue tagField : JSString) (req : RequestData) (st' : Storage),
          handleGenerateRequest params st userInputField modeValue tagField
            = some (req, st') →
          ∃ port, isIntegerString port = true ∧
            req.url = js "http://localhost:" ++ port ++ js "/api/generate") := by
  refine ⟨getBackendPort_ne_nil params st, getBackendPort_verbatim params st, ?_, ?_⟩
  · intro userInputField modeValue tagField hinput
    exact handleGenerateRequest_posts params st userInputField modeValue tagField hinput
  · intro hparam hstore
    exact getBackendPort_preserves_integer params st hparam hstore

/-- C11, amended: two instances. With `?backendPort=abc` the request goes to
`http://localhost:abc/api/generate`; with query parameter `6000` over a stored
`5000` the port is the integer string `6000`. -/
theorem getBackendPort_integer_witness :
    (∃ req st', handleGenerateRequest [(js "backendPort", js "abc")] Storage.empty
        (js "a village") (js "map") (js "") = some (req, st') ∧
      req.url = js "http://localhost:abc/api/generate") ∧
      isIntegerString (getBackendPort [(js "backendPort", js "6000")]
        (Storage.empty.setItem (js "backendPort") (js "5000"))).1 = true := by
  constructor
  · obtain ⟨req, st', h1, h2⟩ :=
      (getBackendPort_integer [(js "backendPort", js "abc")] Storage.empty).2.2.1
        (js "a village") (js "map") (js "") (by decide)
    refine ⟨req, st', h1, h2.trans ?_⟩
    decide
  · refine ((getBackendPort_integer [(js "backendPort", js "6000")]
      (Storage.empty.setItem (js "backendPort") (js "5000"))).2.2.2 ?_ ?_).1
    · intro v hv _
      have hg : URLSearchParams.get [(js "backendPort", js "6000")] (js "backendPort")
          = some (js "6000") := by decide
      rw [hg] at hv
      cases hv
      decide
    · intro w hw
      have hg : (Storage.empty.setItem (js "backendPort") (js "5000")).getItem
          (js "backendPort") = some (js "5000") := by decide
      rw [hg] at hw
      cases hw
      decide

/-! ## Sample evaluations -/

theorem js_sample : js "a.b" = [97, 46, 98] := by decide

theorem maskKey_sample :
    maskKey (js "sk-abcdefghijklmnopqrstuvwxyz") = js "sk-abcde...wxyz" ∧
      maskKey (js "abc") = js "abc...abc" := by decide

theorem trim_sample : trim (js "  a b \n") = js "a b" := by decide

theorem formatText_sample :
    formatText (js "a  \n\n\n\n  b \n") = js "a\n  b" ∧
      formatText (js "x = 1 \ny = 2\n") = js "x = 1\ny = 2" := by decide

end AgenticRAG
